import Mathlib

/-!
# Verification of the policy-enforcer decision pipeline

Shallow embedding of the core components of the `policy-enforcer`
repository: input guardrails (`guardrails.py` / `InputGuardrails`),
output guardrails (`OutputGuardrails`, `should_escalate`), the retrieval
index (`embeddings.py` / `PolicyIndex`), the approval rules engine
(`mcp_server.py` / `check_approval_threshold`, `agent.py` /
`execute_tool`), and the bounded orchestration loop
(`agent.py` / `PolicyAgent.run`).

Strings are modelled as `List Char` (Python strings are sequences of
code points); floats as `ℚ` (every constant compared against in the
source is a small decimal, so rational arithmetic agrees with IEEE
comparison on all inputs of interest); JSON payloads as Lean structures.
-/

namespace PolicyEnforcer

/-! ## Rational constants

The decimal constants of the source (`0.4`, `0.5`, `0.6`, `0.7`,
`0.75`, `0.8`, `0.9`) are given as pre-normalized rationals
(`Rat.mk'` literals) so that the kernel can evaluate comparisons on
them (`Rat` division would normalize through `Nat.gcd`, which the
kernel cannot reduce); each is proved equal to the corresponding
fraction. -/

/-- `0.4`. -/
def q04 : ℚ := ⟨2, 5, by omega, by norm_num [Nat.Coprime]⟩

/-- `0.5`. -/
def q05 : ℚ := ⟨1, 2, by omega, by norm_num [Nat.Coprime]⟩

/-- `0.6`. -/
def q06 : ℚ := ⟨3, 5, by omega, by norm_num [Nat.Coprime]⟩

/-- `0.7`. -/
def q07 : ℚ := ⟨7, 10, by omega, by norm_num [Nat.Coprime]⟩

/-- `0.75`. -/
def q075 : ℚ := ⟨3, 4, by omega, by norm_num [Nat.Coprime]⟩

/-- `0.8`. -/
def q08 : ℚ := ⟨4, 5, by omega, by norm_num [Nat.Coprime]⟩

/-- `0.9`. -/
def q09 : ℚ := ⟨9, 10, by omega, by norm_num [Nat.Coprime]⟩

/-! ## Character helpers (Python semantics, ASCII range) -/

/-- The characters Python's `str.split()` / `str.strip()` treat as
whitespace (CPython's `Py_UNICODE_ISSPACE`): tab through carriage
return (U+0009–U+000D), the information separators U+001C–U+001F,
space, NEL (U+0085), NBSP (U+00A0), Ogham space mark (U+1680), the
typographic spaces U+2000–U+200A, the line and paragraph separators
U+2028/U+2029, U+202F, U+205F and the ideographic space U+3000. -/
def isPySpace (c : Char) : Bool :=
  (9 ≤ c.toNat && c.toNat ≤ 13) || (28 ≤ c.toNat && c.toNat ≤ 32) ||
  c.toNat == 133 || c.toNat == 160 || c.toNat == 0x1680 ||
  (0x2000 ≤ c.toNat && c.toNat ≤ 0x200a) || c.toNat == 0x2028 ||
  c.toNat == 0x2029 || c.toNat == 0x202f || c.toNat == 0x205f ||
  c.toNat == 0x3000

/-- ASCII lower-casing, the effect of `re.IGNORECASE` matching of the
all-lowercase, all-ASCII literal injection phrases. (Unicode case
variants that `re.IGNORECASE` additionally folds, such as U+0130 or
U+017F, are outside the modelled character range.) -/
def toLowerAscii (c : Char) : Char :=
  if 'A' ≤ c && c ≤ 'Z' then Char.ofNat (c.toNat + 32) else c

/-- Hex digit class `[0-9a-fA-F]` used by the encoding-attack regexes. -/
def isHexDigitPy (c : Char) : Bool :=
  ('0' ≤ c && c ≤ '9') || ('a' ≤ c && c ≤ 'f') || ('A' ≤ c && c ≤ 'F')

/-- `needle` occurs at the very start of `haystack`. -/
def leadsWith : List Char → List Char → Bool
  | [], _ => true
  | _ :: _, [] => false
  | a :: as, b :: bs => a == b && leadsWith as bs

/-- `re.search` of a literal string: the needle occurs somewhere in the
haystack. -/
def occursIn (needle : List Char) : List Char → Bool
  | [] => leadsWith needle []
  | c :: cs => leadsWith needle (c :: cs) || occursIn needle cs

/-- `text.split()`: split on runs of whitespace, discarding empty pieces
(accumulator carries the current word, reversed). -/
def splitWsAux : List Char → List Char → List (List Char)
  | [], acc => if acc.isEmpty then [] else [acc.reverse]
  | c :: cs, acc =>
    if isPySpace c then
      if acc.isEmpty then splitWsAux cs [] else acc.reverse :: splitWsAux cs []
    else splitWsAux cs (c :: acc)

/-- Python `str.split()` with no separator. -/
def splitWs (s : List Char) : List (List Char) := splitWsAux s []

/-- `" ".join(words)`. -/
def joinSpace : List (List Char) → List Char
  | [] => []
  | [w] => w
  | w :: ws => w ++ ' ' :: joinSpace ws

/-- Python `str.strip()` (whitespace from both ends). -/
def pyStrip (s : List Char) : List Char :=
  ((s.dropWhile isPySpace).reverse.dropWhile isPySpace).reverse

/-! ## Input guardrails (`guardrails.py`, `InputGuardrails`) -/

/-- `config.MAX_INPUT_LENGTH`. -/
def MAX_INPUT_LENGTH : ℕ := 2000

/-- `config.INJECTION_PATTERNS` — all ten patterns are literal strings
(no regex metacharacters), compiled with `re.IGNORECASE`. -/
def INJECTION_PATTERNS : List (List Char) :=
  [ "ignore previous instructions".data
  , "ignore all instructions".data
  , "disregard your instructions".data
  , "forget your rules".data
  , "you are now".data
  , "act as if".data
  , "pretend you are".data
  , "new instructions:".data
  , "system prompt:".data
  , "override:".data ]

/-- `InputGuardrails._check_injection_patterns`: case-insensitive search
for any of the literal injection phrases. -/
def check_injection_patterns (text : List Char) : Bool :=
  INJECTION_PATTERNS.any fun p => occursIn p (text.map toLowerAscii)

/-- Regex `\\x[0-9a-fA-F]{2}` matching at the head of the list
(a literal backslash, a literal `x`, two hex digits). -/
def hexEscapeAt : List Char → Bool
  | '\\' :: 'x' :: a :: b :: _ => isHexDigitPy a && isHexDigitPy b
  | _ => false

/-- Regex `%[0-9a-fA-F]{2}` matching at the head of the list. -/
def urlEscapeAt : List Char → Bool
  | '%' :: a :: b :: _ => isHexDigitPy a && isHexDigitPy b
  | _ => false

/-- After at least one hex digit: continue through hex digits to a `;`. -/
def hexSemiTail : List Char → Bool
  | [] => false
  | c :: cs => if c == ';' then true else if isHexDigitPy c then hexSemiTail cs else false

/-- One or more hex digits followed by `;`. -/
def oneHexThenSemi : List Char → Bool
  | [] => false
  | c :: cs => isHexDigitPy c && hexSemiTail cs

/-- Regex `&#x?[0-9a-fA-F]+;` matching at the head of the list. -/
def htmlEntityAt : List Char → Bool
  | '&' :: '#' :: 'x' :: rest => oneHexThenSemi rest
  | '&' :: '#' :: rest => oneHexThenSemi rest
  | _ => false

/-- `re.search`: the pattern matches at some position. -/
def anyTailMatch (p : List Char → Bool) : List Char → Bool
  | [] => p []
  | c :: cs => p (c :: cs) || anyTailMatch p cs

/-- `InputGuardrails._check_encoding_attacks`. -/
def check_encoding_attacks (text : List Char) : Bool :=
  anyTailMatch hexEscapeAt text || anyTailMatch urlEscapeAt text ||
    anyTailMatch htmlEntityAt text

/-- `guardrails.ValidationResult`. -/
structure ValidationResult where
  is_valid : Bool
  error_message : Option (List Char) := none
  sanitized_input : Option (List Char) := none
  risk_level : List Char := "low".data
  deriving DecidableEq, Repr

/-- `InputGuardrails._sanitize`: collapse whitespace runs
(`" ".join(text.split())`), remove NUL bytes, drop control characters
other than newline, then strip. -/
def sanitize (text : List Char) : List Char :=
  let collapsed := joinSpace (splitWs text)
  let noNul := collapsed.filter (fun c => c ≠ '\x00')
  let noCtl := noNul.filter (fun c => c == '\n' || !(c.toNat < 32 || c.toNat == 127))
  pyStrip noCtl

/-- `InputGuardrails.validate`: length limit, empty-after-strip,
injection patterns, encoding attacks — in that order — then sanitize. -/
def validate (user_input : List Char) : ValidationResult :=
  if user_input.length > MAX_INPUT_LENGTH then
    { is_valid := false
      error_message := some "Input exceeds maximum length of 2000 characters".data
      risk_level := "medium".data }
  else if (pyStrip user_input).isEmpty then
    { is_valid := false
      error_message := some "Input cannot be empty".data
      risk_level := "low".data }
  else if check_injection_patterns user_input then
    { is_valid := false
      error_message := some "Input contains potentially harmful content".data
      risk_level := "high".data }
  else if check_encoding_attacks user_input then
    { is_valid := false
      error_message := some "Input contains suspicious encoding".data
      risk_level := "high".data }
  else
    { is_valid := true
      sanitized_input := some (sanitize user_input)
      risk_level := "low".data }

/-! ## Output guardrails (`guardrails.py`, `OutputGuardrails`) -/

/-- `guardrails.PolicyResponse` — the structured decision schema.
Field constraints carried by pydantic (`min_length=10` on `reason`,
`ge=0.0, le=1.0` on `confidence`) are checked by `schemaOk` below. -/
structure PolicyFields where
  approved : Bool
  reason : List Char
  policy_reference : List Char
  confidence : ℚ
  requires_escalation : Bool := false
  escalation_reason : Option (List Char) := none
  deriving DecidableEq, Repr

/-- The pydantic field constraints of `PolicyResponse`:
`reason` at least 10 characters, `confidence` in `[0, 1]`. -/
def schemaOk (r : PolicyFields) : Bool :=
  10 ≤ r.reason.length && 0 ≤ r.confidence && r.confidence ≤ 1

/-- `OutputGuardrails.validate_structured_response`. The input is the
outcome of `json.loads` + field decoding: `none` for malformed JSON,
`some r` for a decoded record that pydantic then checks against the
schema. Returns `(is_valid, parsed_response, error_message)`. -/
def validate_structured_response (parsed : Option PolicyFields) :
    Bool × Option PolicyFields × Option (List Char) :=
  match parsed with
  | none => (false, none, some "Invalid JSON".data)
  | some r =>
    if schemaOk r then
      if r.confidence < q05 && !r.requires_escalation then
        (false, none, some "Low confidence decisions should be flagged for escalation".data)
      else
        (true, some r, none)
    else
      (false, none, some "Schema validation failed".data)

/-! ## Confidence-based escalation (`guardrails.should_escalate`) -/

/-- `guardrails.should_escalate`. The `amount` parameter is
`Optional[float]`; the source gates the high-value clause with Python
truthiness (`if amount and amount > 5000`), so `None` and `0.0` both
skip it. The formatted dollar text in the reason is elided. -/
def should_escalate (retrieval_confidence : ℚ) (response_confidence : ℚ)
    (amount : Option ℚ) : Bool × List Char :=
  if retrieval_confidence < q06 then
    (true, "Policy retrieval confidence below threshold".data)
  else if response_confidence < q07 then
    (true, "AI decision confidence below threshold".data)
  else
    match amount with
    | some a =>
      if a ≠ 0 && 5000 < a then
        (true, "High-value transaction requires human review".data)
      else (false, [])
    | none => (false, [])

/-! ## Retrieval index (`embeddings.py`, `PolicyIndex`)

The embedding provider is external; what the claims are about is the
score post-processing: `np.argsort(scores)[::-1][:top_k]` and the
confidence gate.  A search outcome is therefore modelled as a function
of the per-chunk similarity scores (one `ℚ` per chunk, in corpus
order). `np.argsort` sorts ascending and deterministically; we model it
as a stable ascending insertion sort over (index, score) pairs, which
matches numpy's behaviour on the small arrays the repository indexes. -/

/-- One entry of a search result: the chunk's original corpus index and
its similarity score. -/
structure ScoredChunk where
  idx : ℕ
  score : ℚ
  deriving DecidableEq, Repr

/-- Stable insertion (by a rational key) into an ascending list:
the new element goes before the first element of key ≥ its own. -/
def insertOn {α : Type} (key : α → ℚ) (a : α) : List α → List α
  | [] => [a]
  | b :: l => if key a ≤ key b then a :: b :: l else b :: insertOn key a l

/-- Stable ascending sort by key (elements are inserted right-to-left,
so an earlier element lands before later elements of equal key) —
the model of `np.argsort` (ascending) and of Python `sorted`. -/
def sortOn {α : Type} (key : α → ℚ) (l : List α) : List α :=
  l.foldr (insertOn key) []

/-- Pair the scores with their corpus indices, starting at `i`. -/
def indexChunks : ℕ → List ℚ → List ScoredChunk
  | _, [] => []
  | i, s :: ss => ⟨i, s⟩ :: indexChunks (i + 1) ss

/-- `config.RETRIEVAL_CONFIDENCE_THRESHOLD`. -/
def RETRIEVAL_CONFIDENCE_THRESHOLD : ℚ := q075

/-- `RetrievalResult.is_confident`: score meets the fixed module-level
threshold (there is no per-call threshold parameter). -/
def result_is_confident (r : ScoredChunk) : Bool :=
  RETRIEVAL_CONFIDENCE_THRESHOLD ≤ r.score

/-- `PolicyIndex.search` on the similarity scores:
`np.argsort(scores)[::-1][:top_k]`, returning the chunks in that
order. -/
def search (scores : List ℚ) (top_k : ℕ) : List ScoredChunk :=
  ((sortOn ScoredChunk.score (indexChunks 0 scores)).reverse).take top_k

/-- `PolicyIndex.search_with_threshold`:
`is_confident = any(r.is_confident for r in results)`. -/
def search_with_threshold (scores : List ℚ) (top_k : ℕ) :
    List ScoredChunk × Bool :=
  let results := search scores top_k
  (results, results.any result_is_confident)

/-- The result ordering the spec claims for `search` (stated from the
spec's words, to be compared with the code's behaviour): strictly
descending score, with equal-score ties broken by ascending original
corpus index. -/
def specClaimedSearchOrder (rs : List ScoredChunk) : Prop :=
  rs.Pairwise (fun a b => b.score < a.score ∨ (a.score = b.score ∧ a.idx < b.idx))

/-! ## Approval rules engine (`mcp_server.check_approval_threshold`) -/

/-- One entry of `rules["thresholds"]`: an `amount_limit`, a `role`,
and a level rule that is either `min_level_offset` (takes precedence
when present, giving `employee.level + offset`) or
`min_level_absolute` (defaulting to 99 when absent, per
`t.get("min_level_absolute", 99)`). -/
structure Threshold where
  amount_limit : ℚ
  role : List Char
  min_level_offset : Option ℤ := none
  min_level_absolute : Option ℤ := none
  deriving DecidableEq, Repr

/-- `rules["default_threshold"]` — the catch-all rule. -/
structure DefaultThreshold where
  role : List Char
  min_level_absolute : ℤ
  deriving DecidableEq, Repr

/-- `rules["general"]` — the self-approval flag and reason text. -/
structure GeneralRules where
  self_approval_allowed : Bool
  reason_self_approval : List Char
  deriving DecidableEq, Repr

/-- `rules["approval_rules"]` as loaded by `_load_rules`. -/
structure ApprovalRules where
  thresholds : List Threshold
  default_threshold : DefaultThreshold
  general : GeneralRules
  deriving DecidableEq, Repr

/-- The `approval_requirements` object in the tool's JSON reply. -/
structure ApprovalRequirements where
  required_approver_level : List Char
  minimum_approver_level_number : ℤ
  can_self_approve : Bool
  reason : List Char
  deriving DecidableEq, Repr

/-- `min_approver_level` for a matched threshold entry:
`employee["level"] + t["min_level_offset"]` when the offset key is
present, else `t.get("min_level_absolute", 99)`. -/
def applyLevelRule (employee_level : ℤ) (t : Threshold) : ℤ :=
  match t.min_level_offset with
  | some o => employee_level + o
  | none => t.min_level_absolute.getD 99

/-- `mcp_server.check_approval_threshold`, employee-found path: sort the
configured thresholds ascending by `amount_limit` (Python `sorted` is
stable), take the first entry with `amount < amount_limit`; if none
matches, the `default_threshold` catch-all applies. `can_self_approve`
and the reason come from `rules["general"]`. -/
def check_approval_threshold (employee_level : ℤ) (amount : ℚ)
    (rules : ApprovalRules) : ApprovalRequirements :=
  let sorted := sortOn Threshold.amount_limit rules.thresholds
  match sorted.find? (fun t => amount < t.amount_limit) with
  | some t =>
    { required_approver_level := t.role
      minimum_approver_level_number := applyLevelRule employee_level t
      can_self_approve := rules.general.self_approval_allowed
      reason := rules.general.reason_self_approval }
  | none =>
    { required_approver_level := rules.default_threshold.role
      minimum_approver_level_number := rules.default_threshold.min_level_absolute
      can_self_approve := rules.general.self_approval_allowed
      reason := rules.general.reason_self_approval }

/-- Modelled from the spec: `data/rules.json` is not part of the source
tree (only `config.RULES_FILE` points at it). The spec fixes its
content: thresholds `(500, Direct Manager, employee.level + 1)`,
`(2000, Department Head, 7)`, `(10000, VP, 11)`; default catch-all
`(CFO, 13)`; a self-approval flag that is always false with a reason
text — matching the identical ladder hard-coded in
`agent.execute_tool`. -/
def repoRules : ApprovalRules :=
  { thresholds :=
      [ { amount_limit := 500, role := "Direct Manager".data, min_level_offset := some 1 }
      , { amount_limit := 2000, role := "Department Head".data, min_level_absolute := some 7 }
      , { amount_limit := 10000, role := "VP".data, min_level_absolute := some 11 } ]
    default_threshold := { role := "CFO".data, min_level_absolute := 13 }
    general :=
      { self_approval_allowed := false
        reason_self_approval := "Self-approval prohibited".data } }

/-! ## Tool execution (`agent.execute_tool`) -/

/-- An employee record (`data/employees.json` entry). -/
structure Employee where
  id : List Char
  name : List Char
  level : ℤ
  title : List Char
  deriving DecidableEq, Repr

/-- A tool request as decoded from a model turn's `tool_use` block. -/
inductive ToolRequest where
  | getEmployeeInfo (employee_id : List Char) (response_format : List Char)
  | searchManual (query : List Char) (max_results : ℕ)
  | checkApproval (employee_id : List Char) (amount : ℚ) (expense_type : List Char)
  | unknownTool (name : List Char)
  deriving DecidableEq, Repr

/-- The hard-coded approval ladder of `agent.execute_tool`
(`policy_check_approval_threshold` branch): strict `<` bands at
500 / 2000 / 10000, else CFO. Returns `(required_level, min_level)`. -/
def agentApprovalLadder (employee_level : ℤ) (amount : ℚ) : List Char × ℤ :=
  if amount < 500 then ("Direct Manager".data, employee_level + 1)
  else if amount < 2000 then ("Department Head".data, 7)
  else if amount < 10000 then ("VP".data, 11)
  else ("CFO".data, 13)

/-- Structured content of an `execute_tool` reply (the source emits it
as a JSON string; the fields are what the claims inspect). -/
inductive ToolOutput where
  | errorMsg (msg : List Char)
  | employeeInfo (e : Employee)
  | searchResults (results : List ScoredChunk) (is_confident : Bool)
  | approval (employee : Employee) (amount : ℚ) (expense_type : List Char)
      (requirements : ApprovalRequirements)
  deriving DecidableEq, Repr

/-- `agent.execute_tool`, dispatching on the tool name. The employee
database and the per-query similarity scores are passed explicitly
(the source reads them from module state / the embedding client). -/
def execute_tool (db : List Char → Option Employee)
    (scores : List Char → List ℚ) : ToolRequest → ToolOutput
  | .getEmployeeInfo employee_id _ =>
    match db employee_id with
    | none => .errorMsg ("Employee not found".data)
    | some e => .employeeInfo e
  | .searchManual query max_results =>
    let (results, is_confident) := search_with_threshold (scores query) 3
    .searchResults (results.take max_results) is_confident
  | .checkApproval employee_id amount expense_type =>
    match db employee_id with
    | none => .errorMsg ("Employee not found".data)
    | some e =>
      let (required_level, min_level) := agentApprovalLadder e.level amount
      .approval e amount expense_type
        { required_approver_level := required_level
          minimum_approver_level_number := min_level
          can_self_approve := false
          reason := "Self-approval prohibited per policy approval-002".data }
  | .unknownTool _ => .errorMsg ("Unknown tool".data)

/-! ## Orchestration loop (`agent.PolicyAgent.run`) -/

/-- One model turn, as the loop observes it: `stop_reason` plus the
content the branch consumes. For `end_turn`, `jsonBlock` is the
outcome of the ```` ```json ```` fence extraction in
`_process_final_response` (`none` = no fence; `some parsed` = the
fenced text's parse outcome). `otherStop` covers any other
`stop_reason` (e.g. `max_tokens`), on which the loop falls through and
iterates again. -/
inductive ModelTurn where
  | endTurn (text : List Char) (jsonBlock : Option (Option PolicyFields))
  | toolUse (requests : List ToolRequest)
  | otherStop

/-- `agent.AgentResponse`. -/
structure AgentResponse where
  raw_response : List Char
  structured_response : Option PolicyFields
  tool_calls : List (ToolRequest × ToolOutput)
  error : Option (List Char) := none

/-- `PolicyAgent._process_final_response`: if a fenced JSON block exists
and `validate_output` accepts it, return the structured decision; any
failure falls through to the raw response with no structured decision
(and no error). -/
def process_final_response (text : List Char)
    (jsonBlock : Option (Option PolicyFields))
    (tool_calls : List (ToolRequest × ToolOutput)) : AgentResponse :=
  match jsonBlock with
  | some parsed =>
    match validate_structured_response parsed with
    | (true, some r, _) =>
      { raw_response := text, structured_response := some r, tool_calls := tool_calls }
    | _ =>
      { raw_response := text, structured_response := none, tool_calls := tool_calls }
  | none =>
    { raw_response := text, structured_response := none, tool_calls := tool_calls }

/-- The message of the max-iterations branch of `PolicyAgent.run`. -/
def maxIterationsMessage : List Char :=
  "Maximum iterations reached without final response".data

/-- The `for _ in range(max_iterations)` loop of `PolicyAgent.run`.
`turns k` is the model's reply to the `k`-th API call; `calls` counts
calls made so far; `fuel` is the remaining iterations. Returns the
response together with the total number of model calls made. -/
def runLoop (db : List Char → Option Employee) (scores : List Char → List ℚ)
    (turns : ℕ → ModelTurn) :
    ℕ → ℕ → List (ToolRequest × ToolOutput) → AgentResponse × ℕ
  | calls, 0, tool_calls =>
    ({ raw_response := []
       structured_response := none
       tool_calls := tool_calls
       error := some maxIterationsMessage }, calls)
  | calls, fuel + 1, tool_calls =>
    match turns calls with
    | .endTurn text jsonBlock =>
      (process_final_response text jsonBlock tool_calls, calls + 1)
    | .toolUse requests =>
      runLoop db scores turns (calls + 1) fuel
        (tool_calls ++ requests.map (fun r => (r, execute_tool db scores r)))
    | .otherStop => runLoop db scores turns (calls + 1) fuel tool_calls

/-- `PolicyAgent.run`: validate the input; on rejection return the
guardrail error before any model call; otherwise run the bounded tool
loop with `max_iterations = 10`. -/
def run (db : List Char → Option Employee) (scores : List Char → List ℚ)
    (turns : ℕ → ModelTurn) (user_query : List Char) : AgentResponse × ℕ :=
  let validation := validate user_query
  if validation.is_valid then
    runLoop db scores turns 0 10 []
  else
    ({ raw_response := []
       structured_response := none
       tool_calls := []
       error := validation.error_message }, 0)

/-- Outcome taxonomy of `PolicyAgent.run` (spec's error-handling
design): input rejected — the guardrail error is returned before any
model call, with no tool calls and no structured decision. -/
def OutcomeInputRejected (q : List Char) (res : AgentResponse × ℕ) : Prop :=
  (validate q).is_valid = false ∧
  res.1.error = (validate q).error_message ∧
  (validate q).error_message ≠ none ∧
  res.2 = 0 ∧
  res.1.tool_calls = [] ∧
  res.1.structured_response = none

/-- Outcome taxonomy of `PolicyAgent.run`: iteration exhaustion — the
fatal max-iterations error after exactly 10 model calls, never with a
synthesized structured decision. -/
def OutcomeMaxIterations (q : List Char) (res : AgentResponse × ℕ) : Prop :=
  (validate q).is_valid = true ∧
  res.1.error = some maxIterationsMessage ∧
  res.1.structured_response = none ∧
  res.2 = 10

/-- Outcome taxonomy of `PolicyAgent.run`: a final decision — no error,
and any structured decision it carries was accepted by output
validation (`validate_structured_response`). -/
def OutcomeFinalDecision (q : List Char) (res : AgentResponse × ℕ) : Prop :=
  (validate q).is_valid = true ∧
  res.1.error = none ∧
  ∀ d, res.1.structured_response = some d →
    validate_structured_response (some d) = (true, some d, none)

/-! ## Lemmas and claim theorems -/

/-! ### Stable sort lemmas (`sortOn`, the model of `sorted` / `np.argsort`) -/

theorem mem_insertOn {α : Type} (key : α → ℚ) (a x : α) (l : List α) :
    x ∈ insertOn key a l ↔ x = a ∨ x ∈ l := by
  induction l with
  | nil => simp [insertOn]
  | cons b l ih =>
    by_cases h : key a ≤ key b
    · simp [insertOn, h]
    · simp only [insertOn, if_neg h, List.mem_cons, ih]
      tauto

theorem mem_sortOn {α : Type} (key : α → ℚ) (x : α) (l : List α) :
    x ∈ sortOn key l ↔ x ∈ l := by
  induction l with
  | nil => simp [sortOn]
  | cons b l ih =>
    simp only [sortOn, List.foldr_cons, List.mem_cons]
    rw [show l.foldr (insertOn key) [] = sortOn key l from rfl] at *
    rw [mem_insertOn, ih]

theorem sortOn_pairwise_le {α : Type} (key : α → ℚ) (l : List α) :
    (sortOn key l).Pairwise (fun a b => key a ≤ key b) := by
  induction l with
  | nil => simp [sortOn]
  | cons b l ih =>
    show (insertOn key b (sortOn key l)).Pairwise _
    generalize hs : sortOn key l = s at ih
    clear hs l
    induction s with
    | nil => simp [insertOn]
    | cons c s ihs =>
      by_cases h : key b ≤ key c
      · rw [insertOn, if_pos h]
        refine List.Pairwise.cons ?_ ih
        intro x hx
        rcases List.mem_cons.mp hx with rfl | hx
        · exact h
        · exact le_trans h (List.rel_of_pairwise_cons ih hx)
      · rw [insertOn, if_neg h]
        rw [List.pairwise_cons] at ih
        refine List.Pairwise.cons ?_ (ihs ih.2)
        intro x hx
        rcases (mem_insertOn key b x s).mp (by simpa [insertOn, h] using hx) with rfl | hx
        · exact le_of_not_le h
        · exact ih.1 x hx

/-- Stability of `sortOn`: if the input list orders equal-key elements
by a tie relation `p`, the lexicographic (key, then `p`) strict order
holds pairwise on the output. -/
theorem insertOn_pairwise_lex {α : Type} (key : α → ℚ) (p : α → α → Prop)
    (a : α) (l : List α)
    (hl : l.Pairwise (fun x y => key x < key y ∨ (key x = key y ∧ p x y)))
    (ha : ∀ b ∈ l, key a = key b → p a b) :
    (insertOn key a l).Pairwise
      (fun x y => key x < key y ∨ (key x = key y ∧ p x y)) := by
  induction l with
  | nil => simp [insertOn]
  | cons b l ih =>
    rw [List.pairwise_cons] at hl
    by_cases h : key a ≤ key b
    · rw [insertOn, if_pos h]
      refine List.Pairwise.cons ?_ (List.Pairwise.cons hl.1 hl.2)
      intro x hx
      rcases List.mem_cons.mp hx with rfl | hx
      · rcases lt_or_eq_of_le h with hlt | heq
        · exact Or.inl hlt
        · exact Or.inr ⟨heq, ha x (List.mem_cons_self _ _) heq⟩
      · rcases hl.1 x hx with hbx | ⟨hbx, _⟩
        · exact Or.inl (lt_of_le_of_lt h hbx)
        · rcases lt_or_eq_of_le h with hlt | heq
          · exact Or.inl (hbx ▸ hlt)
          · refine Or.inr ⟨heq.trans hbx, ha x (List.mem_cons_of_mem _ hx) (heq.trans hbx)⟩
    · rw [insertOn, if_neg h]
      refine List.Pairwise.cons ?_
        (ih hl.2 (fun c hc => ha c (List.mem_cons_of_mem _ hc)))
      intro x hx
      rcases (mem_insertOn key a x l).mp hx with rfl | hx
      · exact Or.inl (lt_of_not_le h)
      · exact hl.1 x hx

theorem sortOn_pairwise_lex {α : Type} (key : α → ℚ) (p : α → α → Prop)
    (l : List α) (hl : l.Pairwise (fun x y => key x = key y → p x y)) :
    (sortOn key l).Pairwise
      (fun x y => key x < key y ∨ (key x = key y ∧ p x y)) := by
  induction l with
  | nil => simp [sortOn]
  | cons b l ih =>
    rw [List.pairwise_cons] at hl
    show (insertOn key b (sortOn key l)).Pairwise _
    refine insertOn_pairwise_lex key p b (sortOn key l) (ih hl.2) ?_
    intro c hc
    exact hl.1 c ((mem_sortOn key c l).mp hc)

/-! ### First-match lemmas for a sorted ladder -/

theorem find?_sorted_min {α : Type} (key : α → ℚ) (amt : ℚ) (l : List α)
    (hs : l.Pairwise (fun a b => key a ≤ key b)) (t : α)
    (hf : l.find? (fun u => amt < key u) = some t) :
    amt < key t ∧ t ∈ l ∧ ∀ u ∈ l, amt < key u → key t ≤ key u := by
  induction l with
  | nil => simp [List.find?] at hf
  | cons b l ih =>
    rw [List.pairwise_cons] at hs
    by_cases hb : amt < key b
    · rw [List.find?_cons_of_pos _ (by simpa using hb)] at hf
      obtain rfl : b = t := by simpa using hf
      refine ⟨hb, List.mem_cons_self _ _, ?_⟩
      intro u hu _
      rcases List.mem_cons.mp hu with rfl | hu
      · exact le_refl _
      · exact hs.1 u hu
    · rw [List.find?_cons_of_neg _ (by simpa using hb)] at hf
      obtain ⟨h1, h2, h3⟩ := ih hs.2 hf
      refine ⟨h1, List.mem_cons_of_mem _ h2, ?_⟩
      intro u hu hau
      rcases List.mem_cons.mp hu with rfl | hu
      · exact absurd hau hb
      · exact h3 u hu hau

theorem q04_eq : q04 = 2/5 := by
  simp [q04, Rat.mk'_eq_divInt, Rat.divInt_eq_div]

theorem q05_eq : q05 = 1/2 := by
  simp [q05, Rat.mk'_eq_divInt, Rat.divInt_eq_div]

theorem q06_eq : q06 = 3/5 := by
  simp [q06, Rat.mk'_eq_divInt, Rat.divInt_eq_div]

theorem q07_eq : q07 = 7/10 := by
  simp [q07, Rat.mk'_eq_divInt, Rat.divInt_eq_div]

theorem q075_eq : q075 = 3/4 := by
  simp [q075, Rat.mk'_eq_divInt, Rat.divInt_eq_div]

theorem q08_eq : q08 = 4/5 := by
  simp [q08, Rat.mk'_eq_divInt, Rat.divInt_eq_div]

theorem q09_eq : q09 = 9/10 := by
  simp [q09, Rat.mk'_eq_divInt, Rat.divInt_eq_div]

/-! ### Input guardrail facts -/

/-- An invalid validation outcome always carries an error message. -/
theorem validate_invalid_has_error (s : List Char)
    (h : (validate s).is_valid = false) :
    (validate s).error_message ≠ none := by
  unfold validate at h ⊢
  split_ifs at h ⊢ <;> simp_all

/-- C7: for every input string longer than the configured maximum
length (2000 characters), `validate` returns `is_valid = false` with
`risk_level = "medium"`, regardless of the input's content — the
length check precedes the empty, injection and encoding checks. -/
theorem C7_length_over_limit (s : List Char)
    (h : s.length > MAX_INPUT_LENGTH) :
    validate s =
      { is_valid := false
        error_message := some "Input exceeds maximum length of 2000 characters".data
        sanitized_input := none
        risk_level := "medium".data } := by
  rw [validate, if_pos h]

theorem C7_witness :
    validate (List.replicate 2001 'a') =
      { is_valid := false
        error_message := some "Input exceeds maximum length of 2000 characters".data
        sanitized_input := none
        risk_level := "medium".data } :=
  C7_length_over_limit _ (by rw [List.length_replicate]; decide)

/-- C8: every input that passes all four validation checks comes back
with `sanitized_input` equal to the sanitization pipeline: collapse
whitespace runs (split + single-space join), strip NUL bytes, strip
control characters other than newline, trim. (`validate` is a total
Lean function, so purity/totality is intrinsic to the embedding.) -/
theorem C8_sanitized_on_success (s : List Char)
    (h : (validate s).is_valid = true) :
    (validate s).sanitized_input = some (sanitize s) ∧
    sanitize s =
      pyStrip ((((joinSpace (splitWs s)).filter (fun c => c ≠ '\x00')).filter
        (fun c => c == '\n' || !(c.toNat < 32 || c.toNat == 127)))) := by
  refine ⟨?_, rfl⟩
  unfold validate at h ⊢
  split_ifs at h ⊢
  simp_all

/-- C8 witness, at an input containing the file separator U+001C —
Python whitespace, so the program collapses it to a single space
rather than deleting it as a control character: the sanitized result
is `"a b"`. -/
theorem C8_witness :
    (validate ['a', '\x1c', 'b']).sanitized_input =
      some (sanitize ['a', '\x1c', 'b']) ∧
    sanitize ['a', '\x1c', 'b'] = ['a', ' ', 'b'] :=
  ⟨(C8_sanitized_on_success _ (by decide)).1, by decide⟩

/-- C10: the one-character input `"\x01"` (a non-whitespace control
character) is non-empty, within the length limit, passes validation
(the empty check runs on the raw stripped input, before sanitization),
yet its `sanitized_input` is the empty string because sanitization
removes the control character. -/
theorem C10_control_char_sanitizes_to_empty :
    ['\x01'] ≠ [] ∧
    ¬ (['\x01'] : List Char).length > MAX_INPUT_LENGTH ∧
    (validate ['\x01']).is_valid = true ∧
    (validate ['\x01']).sanitized_input = some [] := by
  decide

/-! ### Output guardrail facts -/

/-- C3: output validation rejects (invalid, no structured decision) any
parsed decision with `confidence < 0.5` and `requires_escalation =
false`; and it accepts an otherwise schema-valid decision with
`confidence = 0.4` and `requires_escalation = true`. -/
theorem C3_low_confidence_requires_escalation :
    (∀ r : PolicyFields, r.confidence < q05 → r.requires_escalation = false →
      (validate_structured_response (some r)).1 = false ∧
      (validate_structured_response (some r)).2.1 = none) ∧
    (validate_structured_response (some
        { approved := false
          reason := "Policy guidance is unclear".data
          policy_reference := "travel-001".data
          confidence := q04
          requires_escalation := true })).1 = true := by
  constructor
  · intro r hconf hesc
    unfold validate_structured_response
    by_cases hs : schemaOk r
    · simp [hs, hconf, hesc]
    · simp [hs]
  · decide

theorem C3_witness :
    (validate_structured_response (some
        { approved := false
          reason := "Policy guidance is unclear".data
          policy_reference := "travel-001".data
          confidence := q04
          requires_escalation := false })).1 = false :=
  (C3_low_confidence_requires_escalation.1 _ (by decide) (by decide)).1

/-- C4: `should_escalate` (with an amount present) fires exactly when
`retrieval_confidence < 0.6`, or `response_confidence < 0.7`, or the
amount exceeds 5000 — so for amount 15000 it fires regardless of the
confidences. -/
theorem C4_should_escalate_iff (rc dc a : ℚ) :
    (should_escalate rc dc (some a)).1 = true ↔
      (rc < q06 ∨ dc < q07 ∨ 5000 < a) := by
  unfold should_escalate
  split_ifs with h1 h2
  · simp [h1]
  · simp [h2]
  · by_cases h5 : (5000 : ℚ) < a
    · have h0 : a ≠ 0 := ne_of_gt (lt_trans (by norm_num) h5)
      simp [h0, h5]
    · simp [h5, h1, h2]

/-! ### Retrieval index facts -/

theorem indexChunks_idx_ge (i : ℕ) (ss : List ℚ) :
    ∀ c ∈ indexChunks i ss, i ≤ c.idx := by
  induction ss generalizing i with
  | nil => simp [indexChunks]
  | cons s ss ih =>
    intro c hc
    rcases List.mem_cons.mp hc with rfl | hc
    · exact le_refl _
    · exact le_trans (Nat.le_succ i) (ih (i + 1) c hc)

theorem indexChunks_pairwise_idx (i : ℕ) (ss : List ℚ) :
    (indexChunks i ss).Pairwise (fun a b => a.idx < b.idx) := by
  induction ss generalizing i with
  | nil => exact List.Pairwise.nil
  | cons s ss ih =>
    refine List.Pairwise.cons ?_ (ih (i + 1))
    intro c hc
    exact lt_of_lt_of_le (Nat.lt_succ_self i) (indexChunks_idx_ge (i + 1) ss c hc)

/-- C5 counterexample: the spec's threshold-parameter reading fails on
the code. With a single chunk of score `0.8`, `search_with_threshold`
reports `is_confident = true` (`0.8 ≥ 0.75`), yet for the threshold
`0.9 ∈ [0, 1]` no returned result has score `≥ 0.9` — so
"`is_confident` is true iff some result score ≥ threshold, for every
threshold in `[0, 1]`" is false: `is_confident` compares against the
fixed module constant only. -/
theorem C5_counterexample :
    ¬ ∀ t : ℚ, 0 ≤ t → t ≤ 1 →
      ((search_with_threshold [q08] 1).2 = true ↔
        ∃ r ∈ (search_with_threshold [q08] 1).1, t ≤ r.score) := by
  intro h
  have h9 := (h q09 (by decide) (by decide)).mp (by decide)
  revert h9
  decide

/-- C5 (amended): `is_confident` is true exactly when some returned
result's score is at least the fixed `RETRIEVAL_CONFIDENCE_THRESHOLD`
(0.75); `search_with_threshold` takes no threshold parameter, and the
family of gates "some result score ≥ t" is antitone in `t`, so the
fixed gate implies every gate with a lower threshold. -/
theorem C5_confidence_gate (scores : List ℚ) (top_k : ℕ) :
    ((search_with_threshold scores top_k).2 = true ↔
      ∃ r ∈ (search_with_threshold scores top_k).1,
        RETRIEVAL_CONFIDENCE_THRESHOLD ≤ r.score) ∧
    (∀ t t' : ℚ, t' ≤ t →
      (∃ r ∈ (search_with_threshold scores top_k).1, t ≤ r.score) →
      ∃ r ∈ (search_with_threshold scores top_k).1, t' ≤ r.score) := by
  constructor
  · simp [search_with_threshold, List.any_eq_true, result_is_confident]
  · rintro t t' htt ⟨r, hr, hsc⟩
    exact ⟨r, hr, le_trans htt hsc⟩

theorem C5_witness :
    ∃ r ∈ (search_with_threshold [q08] 1).1, (0 : ℚ) ≤ r.score :=
  (C5_confidence_gate [q08] 1).2 RETRIEVAL_CONFIDENCE_THRESHOLD 0
    (by decide) ((C5_confidence_gate [q08] 1).1.mp (by decide))

/-- C9 counterexample: with two equal scores, `search` (which reverses
an ascending argsort) returns the chunks in descending original-index
order `[1, 0]`, so the result is neither strictly descending in score
nor tie-broken by ascending original index as the spec claims. -/
theorem C9_counterexample :
    search [1, 1] 2 = [⟨1, 1⟩, ⟨0, 1⟩] ∧
    ¬ specClaimedSearchOrder (search [1, 1] 2) := by
  refine ⟨by decide, ?_⟩
  intro h
  rw [show search [1, 1] 2 = [⟨1, 1⟩, ⟨0, 1⟩] by decide] at h
  rcases h with _ | ⟨h1, _⟩
  rcases h1 ⟨0, 1⟩ (List.mem_singleton_self _) with hlt | ⟨_, hidx⟩
  · exact lt_irrefl _ hlt
  · exact Nat.not_lt_zero _ hidx

/-- C9 (amended): `search` returns at most `top_k` results, ordered by
non-increasing score, with equal-score ties appearing in *descending*
original corpus index order (the reversal of a stable ascending
argsort) — deterministic, but the opposite tie direction from the
claim. -/
theorem C9_search_order (scores : List ℚ) (top_k : ℕ) :
    (search scores top_k).length ≤ top_k ∧
    (search scores top_k).Pairwise
      (fun a b => b.score < a.score ∨ (b.score = a.score ∧ b.idx < a.idx)) := by
  constructor
  · exact List.length_take_le _ _
  · have h0 : (indexChunks 0 scores).Pairwise
        (fun a b => ScoredChunk.score a = ScoredChunk.score b → a.idx < b.idx) :=
      (indexChunks_pairwise_idx 0 scores).imp (fun h => fun _ => h)
    have h1 := sortOn_pairwise_lex ScoredChunk.score
      (fun a b => a.idx < b.idx) (indexChunks 0 scores) h0
    have h2 : ((sortOn ScoredChunk.score (indexChunks 0 scores)).reverse).Pairwise
        (fun a b => b.score < a.score ∨ (b.score = a.score ∧ b.idx < a.idx)) := by
      rw [List.pairwise_reverse]
      exact h1
    exact h2.take

/-! ### Approval rules engine facts -/

/-- C1: `check_approval_threshold` evaluates the threshold ladder in
ascending `amount_limit` order and the first entry with
`amount < amount_limit` (strict, so an amount equal to a boundary falls
to the next higher band) wins, its `level_rule` applied as
`employee.level + offset` or as the absolute minimum level
(`applyLevelRule`); if no entry matches, the default catch-all rule
applies. The winner is characterised as a matching entry whose
`amount_limit` is minimal among all matching entries. -/
theorem C1_threshold_ladder (rules : ApprovalRules) (lvl : ℤ) (amt : ℚ) :
    ((∃ t ∈ rules.thresholds, amt < t.amount_limit) →
      ∃ t ∈ rules.thresholds, amt < t.amount_limit ∧
        (∀ u ∈ rules.thresholds, amt < u.amount_limit →
          t.amount_limit ≤ u.amount_limit) ∧
        check_approval_threshold lvl amt rules =
          { required_approver_level := t.role
            minimum_approver_level_number := applyLevelRule lvl t
            can_self_approve := rules.general.self_approval_allowed
            reason := rules.general.reason_self_approval }) ∧
    ((∀ t ∈ rules.thresholds, ¬ amt < t.amount_limit) →
      check_approval_threshold lvl amt rules =
        { required_approver_level := rules.default_threshold.role
          minimum_approver_level_number := rules.default_threshold.min_level_absolute
          can_self_approve := rules.general.self_approval_allowed
          reason := rules.general.reason_self_approval }) := by
  constructor
  · rintro ⟨t0, ht0, hlt0⟩
    rcases hf : (sortOn Threshold.amount_limit rules.thresholds).find?
        (fun t => amt < t.amount_limit) with _ | t
    · exfalso
      have := List.find?_eq_none.mp hf t0
        ((mem_sortOn Threshold.amount_limit t0 rules.thresholds).mpr ht0)
      simp [hlt0] at this
    · obtain ⟨h1, h2, h3⟩ := find?_sorted_min Threshold.amount_limit amt _
        (sortOn_pairwise_le Threshold.amount_limit rules.thresholds) t
        (by simpa using hf)
      refine ⟨t, (mem_sortOn Threshold.amount_limit t rules.thresholds).mp h2,
        h1, ?_, ?_⟩
      · intro u hu hau
        exact h3 u ((mem_sortOn Threshold.amount_limit u rules.thresholds).mpr hu) hau
      · simp only [check_approval_threshold]
        rw [hf]
  · intro hnone
    have hf : (sortOn Threshold.amount_limit rules.thresholds).find?
        (fun t => amt < t.amount_limit) = none := by
      apply List.find?_eq_none.mpr
      intro u hu
      have := hnone u ((mem_sortOn Threshold.amount_limit u rules.thresholds).mp hu)
      simpa using this
    simp only [check_approval_threshold]
    rw [hf]

/-- C1 witness, at the spec's boundary example: amount 500 against the
repository ladder does not use the 500 band — the Department Head band
(limit 2000) wins with absolute level 7 for a level-5 employee. -/
theorem C1_witness :
    ∃ t ∈ repoRules.thresholds, (500 : ℚ) < t.amount_limit ∧
      (∀ u ∈ repoRules.thresholds, (500 : ℚ) < u.amount_limit →
        t.amount_limit ≤ u.amount_limit) ∧
      check_approval_threshold 5 500 repoRules =
        { required_approver_level := t.role
          minimum_approver_level_number := applyLevelRule 5 t
          can_self_approve := repoRules.general.self_approval_allowed
          reason := repoRules.general.reason_self_approval } :=
  (C1_threshold_ladder repoRules 5 500).1 (by decide)

/-- C6: `can_self_approve` is false for every employee level, amount
and expense type — in `check_approval_threshold` under the repository
rule set (whose `general.self_approval_allowed` is false), and
unconditionally in `agent.execute_tool`, whose approval payload
hard-codes `can_self_approve = False`. -/
theorem C6_can_self_approve_false :
    (∀ (lvl : ℤ) (amt : ℚ),
      (check_approval_threshold lvl amt repoRules).can_self_approve = false) ∧
    (∀ (db : List Char → Option Employee) (scores : List Char → List ℚ)
        (employee_id : List Char) (amt : ℚ) (expense_type : List Char)
        (e : Employee) (a : ℚ) (ty : List Char) (reqs : ApprovalRequirements),
      execute_tool db scores (.checkApproval employee_id amt expense_type) =
        .approval e a ty reqs → reqs.can_self_approve = false) := by
  constructor
  · intro lvl amt
    rcases hf : (sortOn Threshold.amount_limit repoRules.thresholds).find?
        (fun t => amt < t.amount_limit) with _ | t
    · simp only [check_approval_threshold]
      rw [hf]
      rfl
    · simp only [check_approval_threshold]
      rw [hf]
      rfl
  · intro db scores employee_id amt expense_type e a ty reqs h
    simp only [execute_tool] at h
    rcases hdb : db employee_id with _ | e'
    · rw [hdb] at h
      simp at h
    · rw [hdb] at h
      simp only [ToolOutput.approval.injEq] at h
      obtain ⟨-, -, -, h4⟩ := h
      rw [← h4]

theorem C6_witness :
    ({ required_approver_level := "Direct Manager".data
       minimum_approver_level_number := 6
       can_self_approve := false
       reason := "Self-approval prohibited per policy approval-002".data }
      : ApprovalRequirements).can_self_approve = false :=
  C6_can_self_approve_false.2
    (fun _ => some { id := "emp001".data, name := "A".data, level := 5, title := "T".data })
    (fun _ => []) "emp001".data 100 "travel".data
    { id := "emp001".data, name := "A".data, level := 5, title := "T".data }
    100 "travel".data _ (by decide)

/-! ### Orchestration loop facts -/

/-- `_process_final_response` never sets an error, passes the tool-call
history through, and only returns a structured decision that output
validation accepted. -/
theorem process_final_ok (text : List Char)
    (jsonBlock : Option (Option PolicyFields))
    (tc : List (ToolRequest × ToolOutput)) :
    (process_final_response text jsonBlock tc).error = none ∧
    (process_final_response text jsonBlock tc).tool_calls = tc ∧
    (∀ d, (process_final_response text jsonBlock tc).structured_response = some d →
      validate_structured_response (some d) = (true, some d, none)) := by
  unfold process_final_response
  cases jsonBlock with
  | none => exact ⟨rfl, rfl, by simp⟩
  | some parsed =>
    cases parsed with
    | none => simp [validate_structured_response]
    | some r =>
      by_cases hs : schemaOk r
      · by_cases hc : r.confidence < q05 && !r.requires_escalation
        · simp [validate_structured_response, hs, hc]
        · simp only [validate_structured_response, if_pos hs, if_neg hc]
          refine ⟨by trivial, by trivial, ?_⟩
          intro d hd
          obtain rfl : r = d := by simpa using hd
          simp [validate_structured_response, hs, hc]
      · simp [validate_structured_response, hs]

/-- Loop invariant for `runLoop`: starting at `calls` made and `fuel`
remaining, the loop makes at most `fuel` further model calls; its error
is either absent or the max-iterations message; the max-iterations exit
carries no structured decision and happens exactly at `calls + fuel`
total calls; and an error-free exit only carries a structured decision
that output validation accepted. -/
theorem runLoop_spec (db : List Char → Option Employee)
    (scores : List Char → List ℚ) (turns : ℕ → ModelTurn) :
    ∀ (fuel calls : ℕ) (tc : List (ToolRequest × ToolOutput)),
      (runLoop db scores turns calls fuel tc).2 ≤ calls + fuel ∧
      ((runLoop db scores turns calls fuel tc).1.error = none ∨
        (runLoop db scores turns calls fuel tc).1.error = some maxIterationsMessage) ∧
      ((runLoop db scores turns calls fuel tc).1.error = some maxIterationsMessage →
        (runLoop db scores turns calls fuel tc).1.structured_response = none ∧
        (runLoop db scores turns calls fuel tc).2 = calls + fuel) ∧
      ((runLoop db scores turns calls fuel tc).1.error = none →
        ∀ d, (runLoop db scores turns calls fuel tc).1.structured_response = some d →
          validate_structured_response (some d) = (true, some d, none)) := by
  intro fuel
  induction fuel with
  | zero =>
    intro calls tc
    simp [runLoop]
  | succ fuel ih =>
    intro calls tc
    cases ht : turns calls with
    | endTurn text jsonBlock =>
      simp only [runLoop, ht]
      obtain ⟨he, _, hv⟩ := process_final_ok text jsonBlock tc
      refine ⟨by omega, Or.inl he, ?_, ?_⟩
      · intro hmax
        rw [he] at hmax
        exact absurd hmax (by simp)
      · intro _ d hd
        exact hv d hd
    | toolUse reqs =>
      simp only [runLoop, ht]
      obtain ⟨h1, h2, h3, h4⟩ :=
        ih (calls + 1) (tc ++ reqs.map fun r => (r, execute_tool db scores r))
      refine ⟨by omega, h2, ?_, h4⟩
      intro hmax
      obtain ⟨hn, hc⟩ := h3 hmax
      exact ⟨hn, by omega⟩
    | otherStop =>
      simp only [runLoop, ht]
      obtain ⟨h1, h2, h3, h4⟩ := ih (calls + 1) tc
      refine ⟨by omega, h2, ?_, h4⟩
      intro hmax
      obtain ⟨hn, hc⟩ := h3 hmax
      exact ⟨hn, by omega⟩

/-- C2: for every input query and every sequence of model turns,
`PolicyAgent.run` makes at most 10 model calls and lands in exactly one
of the three outcomes: a final decision handed to output validation, a
max-iterations error (exactly 10 calls, no synthesized structured
decision), or an input-rejected guardrail error issued before any model
call. -/
theorem C2_run_outcomes (db : List Char → Option Employee)
    (scores : List Char → List ℚ) (turns : ℕ → ModelTurn)
    (q : List Char) :
    (run db scores turns q).2 ≤ 10 ∧
    (OutcomeInputRejected q (run db scores turns q) ∨
      OutcomeMaxIterations q (run db scores turns q) ∨
      OutcomeFinalDecision q (run db scores turns q)) ∧
    ¬ (OutcomeInputRejected q (run db scores turns q) ∧
        OutcomeMaxIterations q (run db scores turns q)) ∧
    ¬ (OutcomeInputRejected q (run db scores turns q) ∧
        OutcomeFinalDecision q (run db scores turns q)) ∧
    ¬ (OutcomeMaxIterations q (run db scores turns q) ∧
        OutcomeFinalDecision q (run db scores turns q)) := by
  have hex1 : ¬ (OutcomeInputRejected q (run db scores turns q) ∧
      OutcomeMaxIterations q (run db scores turns q)) := by
    rintro ⟨⟨h1, _⟩, ⟨h2, _⟩⟩
    rw [h1] at h2
    exact absurd h2 (by simp)
  have hex2 : ¬ (OutcomeInputRejected q (run db scores turns q) ∧
      OutcomeFinalDecision q (run db scores turns q)) := by
    rintro ⟨⟨h1, _⟩, ⟨h2, _⟩⟩
    rw [h1] at h2
    exact absurd h2 (by simp)
  have hex3 : ¬ (OutcomeMaxIterations q (run db scores turns q) ∧
      OutcomeFinalDecision q (run db scores turns q)) := by
    rintro ⟨⟨_, h1, _⟩, ⟨_, h2, _⟩⟩
    rw [h1] at h2
    exact absurd h2 (by simp)
  by_cases hv : (validate q).is_valid
  · have hrun : run db scores turns q = runLoop db scores turns 0 10 [] := by
      simp [run, hv]
    obtain ⟨hb, hdisj, hmax, hfin⟩ := runLoop_spec db scores turns 10 0 []
    refine ⟨by rw [hrun]; simpa using hb, ?_, hex1, hex2, hex3⟩
    rcases hdisj with he | he
    · exact Or.inr (Or.inr ⟨hv, by rw [hrun]; exact he,
        by rw [hrun]; exact hfin he⟩)
    · exact Or.inr (Or.inl ⟨hv, by rw [hrun]; exact he,
        by rw [hrun]; exact (hmax he).1,
        by rw [hrun]; simpa using (hmax he).2⟩)
  · have hv' : (validate q).is_valid = false := by simpa using hv
    have hrun : run db scores turns q =
        ({ raw_response := []
           structured_response := none
           tool_calls := []
           error := (validate q).error_message }, 0) := by
      simp [run, hv']
    refine ⟨by rw [hrun]; omega, ?_, hex1, hex2, hex3⟩
    refine Or.inl ⟨hv', by rw [hrun], validate_invalid_has_error q hv', by rw [hrun],
      by rw [hrun], by rw [hrun]⟩

theorem C2_witness :
    (run (fun _ => none) (fun _ => []) (fun _ => ModelTurn.otherStop)
      "Can I expense a laptop?".data).2 ≤ 10 :=
  (C2_run_outcomes (fun _ => none) (fun _ => [])
    (fun _ => ModelTurn.otherStop) "Can I expense a laptop?".data).1

end PolicyEnforcer
